import Mathlib

/-!
Verification development for the movie recommendation system
(`models/content_based_recommendation.py`, `models/popularity.py`,
`utils/data_loader.py`).

The Python source is shallowly embedded in Lean:

* a pandas row becomes a `Movie` record; absent (NaN) text fields are
  `Option String` with `none` for NaN; the loader types `vote_count` as a
  non-nullable `int32` and `vote_average` as `float32`, modelled as `ℤ`
  and `ℚ` (float rounding is not modelled; all arithmetic is exact);
* `TfidfVectorizer(stop_words="english", max_features=10000)` is embedded
  as: lowercase, tokenize on the default token pattern (maximal runs of
  word characters, kept when of length at least 2), remove the fixed
  sklearn English stop-word list, build the alphabetically sorted
  vocabulary (capped at 10000 by corpus term frequency), and weight the
  per-document term counts by an inverse-document-frequency factor.
  The source's smooth idf weight `ln((1+n)/(1+df))+1` is irrational, so
  the embedding takes the idf weight as a parameter
  `idf : ℕ → ℕ → ℚ` (arguments: corpus size, document frequency);
  `IdfPos idf` records the property `0 < idf n df`, which the source's
  formula always satisfies (its value is at least 1).
* the l2 normalisation plus `linear_kernel` of the source produce the
  cosine similarity `dot v_i v_j / (‖v_i‖ * ‖v_j‖)` (with zero rows kept
  as zero).  Those values involve square roots, so the embedding tracks
  the SQUARE of each similarity score (`simSqEntry`), which is rational.
  Squaring is strictly monotone and injective on the nonnegative reals,
  so score comparisons (hence sort order and ties) and the values 0 and 1
  are preserved exactly; the presentational `round(score, 4)` of the
  source is not modelled because no claim refers to the rounded value.
* Python's `sorted(..., reverse=True)` is a stable descending sort; it is
  embedded as `List.insertionSort` with the relation `b.2 ≤ a.2`, which
  inserts earlier elements before equal later ones, reproducing
  stability.  `DataFrame.sort_values` (popularity) uses an unstable
  quicksort whose tie order is unspecified; it is embedded with the same
  stable sort, one legitimate resolution of that unspecified order.
* `Series.str.contains(pat, case=False, na=False)` compiles `pat` as a
  REGULAR EXPRESSION with `re.IGNORECASE` and `re.search` semantics.
  The embedding `pyContainsCI` models the fragment of Python regexes
  consisting of literal characters and the metacharacter `.` (match any
  character); every pattern appearing in this development stays inside
  that fragment.
-/

/-- Python `str.lower` (all inputs in this development are ASCII). -/
def pyLower (s : String) : String := String.mk (s.data.map Char.toLower)

/-- A word character of the default sklearn token pattern `\w\w+`. -/
def isWordChar (c : Char) : Bool := c.isAlphanum || c = '_'

/-- Split a character list into maximal runs of word characters and keep
the runs of length at least 2, following the token pattern
`(?u)\b\w\w+\b` of `TfidfVectorizer`.  `acc` holds the current run,
reversed. -/
def tokenizeAux : List Char → List Char → List String
  | [], acc => if 2 ≤ acc.length then [String.mk acc.reverse] else []
  | c :: cs, acc =>
    if isWordChar c then tokenizeAux cs (c :: acc)
    else (if 2 ≤ acc.length then [String.mk acc.reverse] else []) ++ tokenizeAux cs []

/-- Tokens of a text, after lowercasing, before stop-word removal. -/
def rawTokens (s : String) : List String := tokenizeAux (pyLower s).data []

/-- The frozen sklearn `ENGLISH_STOP_WORDS` list used by
`TfidfVectorizer(stop_words="english")`. -/
def sklearnStopWords : List String :=
  ["a", "about", "above", "across", "after", "afterwards", "again", "against",
   "all", "almost", "alone", "along", "already", "also", "although", "always",
   "am", "among", "amongst", "amoungst", "amount", "an", "and", "another",
   "any", "anyhow", "anyone", "anything", "anyway", "anywhere", "are",
   "around", "as", "at", "back", "be", "became", "because", "become",
   "becomes", "becoming", "been", "before", "beforehand", "behind", "being",
   "below", "beside", "besides", "between", "beyond", "bill", "both",
   "bottom", "but", "by", "call", "can", "cannot", "cant", "co", "con",
   "could", "couldnt", "cry", "de", "describe", "detail", "do", "done",
   "down", "due", "during", "each", "eg", "eight", "either", "eleven",
   "else", "elsewhere", "empty", "enough", "etc", "even", "ever", "every",
   "everyone", "everything", "everywhere", "except", "few", "fifteen",
   "fifty", "fill", "find", "fire", "first", "five", "for", "former",
   "formerly", "forty", "found", "four", "from", "front", "full", "further",
   "get", "give", "go", "had", "has", "hasnt", "have", "he", "hence", "her",
   "here", "hereafter", "hereby", "herein", "hereupon", "hers", "herself",
   "him", "himself", "his", "how", "however", "hundred", "i", "ie", "if",
   "in", "inc", "indeed", "interest", "into", "is", "it", "its", "itself",
   "keep", "last", "latter", "latterly", "least", "less", "ltd", "made",
   "many", "may", "me", "meanwhile", "might", "mill", "mine", "more",
   "moreover", "most", "mostly", "move", "much", "must", "my", "myself",
   "name", "namely", "neither", "never", "nevertheless", "next", "nine",
   "no", "nobody", "none", "noone", "nor", "not", "nothing", "now",
   "nowhere", "of", "off", "often", "on", "once", "one", "only", "onto",
   "or", "other", "others", "otherwise", "our", "ours", "ourselves", "out",
   "over", "own", "part", "per", "perhaps", "please", "put", "rather", "re",
   "same", "see", "seem", "seemed", "seeming", "seems", "serious", "several",
   "she", "should", "show", "side", "since", "sincere", "six", "sixty", "so",
   "some", "somehow", "someone", "something", "sometime", "sometimes",
   "somewhere", "still", "such", "system", "take", "ten", "than", "that",
   "the", "their", "them", "themselves", "then", "thence", "there",
   "thereafter", "thereby", "therefore", "therein", "thereupon", "these",
   "they", "thick", "thin", "third", "this", "those", "though", "three",
   "through", "throughout", "thru", "thus", "to", "together", "too", "top",
   "toward", "towards", "twelve", "twenty", "two", "un", "under", "until",
   "up", "upon", "us", "very", "via", "was", "we", "well", "were", "what",
   "whatever", "when", "whence", "whenever", "where", "whereafter",
   "whereas", "whereby", "wherein", "whereupon", "wherever", "whether",
   "which", "while", "whither", "who", "whoever", "whole", "whom", "whose",
   "why", "will", "with", "within", "without", "would", "yet", "you",
   "your", "yours", "yourself", "yourselves"]

/-- One row of the loaded movie table (`data_loader.movies`). -/
structure Movie where
  id : ℤ
  title : Option String
  overview : Option String
  keywords : Option String
  genres : Option String
  release_date : Option String
  vote_average : ℚ
  vote_count : ℤ
deriving DecidableEq

instance : Inhabited Movie := ⟨⟨0, none, none, none, none, none, 0, 0⟩⟩

/-- The weighted text blob of `initialize_content_model`:
`(overview.fillna("") + " ") * 3 + (keywords.fillna("") + " ") * 3 +
 (genres.fillna("") + " ") * 3 + (title.fillna("") + " ")`. -/
def contentOf (mv : Movie) : String :=
  let rep3 := fun (s : String) => let u := s ++ " "; u ++ u ++ u
  rep3 (mv.overview.getD "") ++ rep3 (mv.keywords.getD "") ++
    rep3 (mv.genres.getD "") ++ (mv.title.getD "" ++ " ")

/-- Tokens the vectorizer sees for one movie: tokenized lowercased blob
with the English stop words removed. -/
def contentTokens (mv : Movie) : List String :=
  (rawTokens (contentOf mv)).filter (fun t => !(sklearnStopWords.contains t))

/-- Lexicographic code-point comparison of character lists (Python's
string `<`). -/
def charListLt : List Char → List Char → Bool
  | [], [] => false
  | [], _ :: _ => true
  | _ :: _, [] => false
  | a :: as, b :: bs => a < b || (a = b && charListLt as bs)

/-- String comparison used to keep the vocabulary alphabetically sorted
(sklearn sorts feature names; code-point order agrees with Python on
ASCII). -/
def strLe (a b : String) : Prop := charListLt b.data a.data = false

instance : DecidableRel strLe := fun _ _ => instDecidableEqBool _ _

/-- Ordering used by the `max_features` cap: corpus term frequency
descending, alphabetical on ties. -/
def tfOrder (tf : String → ℕ) (a b : String) : Prop :=
  tf b < tf a ∨ (tf a = tf b ∧ strLe a b)

instance (tf : String → ℕ) : DecidableRel (tfOrder tf) := fun a b => by
  unfold tfOrder; infer_instance

/-- The fitted vocabulary of `TfidfVectorizer`: the alphabetically sorted
set of distinct tokens of the corpus; if more than `10000` terms occur,
the 10000 with the highest corpus term frequency are kept (sklearn's tie
order among equal frequencies comes from an unstable argsort and is
unspecified; the embedding fixes alphabetical order) and re-sorted
alphabetically.  The cap never binds on the catalogs studied here. -/
def fitVocabulary (cat : List Movie) : List String :=
  let docs := cat.map contentTokens
  let terms := (docs.foldr (· ++ ·) []).eraseDups
  let sorted := List.insertionSort strLe terms
  if sorted.length ≤ 10000 then sorted
  else
    let tf := fun t => (docs.map (fun d => d.count t)).sum
    let picked := (List.insertionSort (tfOrder tf) sorted).take 10000
    List.insertionSort strLe picked

/-- Document frequency of a term: in how many documents of the corpus it
occurs. -/
def dfOf (cat : List Movie) (t : String) : ℕ :=
  (cat.map contentTokens).countP (fun d => d.contains t)

/-- The positivity property of the source's smooth idf weight
`ln((1+n)/(1+df)) + 1`: since `df ≤ n`, the logarithm is nonnegative and
the weight is at least 1, in particular positive.  The embedding keeps
the weight as an abstract parameter `idf : ℕ → ℕ → ℚ` (corpus size,
document frequency) because the logarithm is irrational. -/
def IdfPos (idf : ℕ → ℕ → ℚ) : Prop := ∀ n df, 0 < idf n df

/-- The idf weight attached to each vocabulary term. -/
def idfWeights (idf : ℕ → ℕ → ℚ) (cat : List Movie) : List ℚ :=
  (fitVocabulary cat).map (fun t => idf cat.length (dfOf cat t))

/-- Raw term counts of one document over the fitted vocabulary. -/
def countRow (cat : List Movie) (mv : Movie) : List ℕ :=
  (fitVocabulary cat).map (fun t => (contentTokens mv).count t)

/-- Term-count matrix of the corpus (one row per movie, one column per
vocabulary term). -/
def countMatrix (cat : List Movie) : List (List ℕ) := cat.map (countRow cat)

/-- One row of the (un-normalised) tf-idf matrix
`_tfidf_matrix = _tfidf_vectorizer.fit_transform(content)`:
term count times idf weight. -/
def tfidfRow (idf : ℕ → ℕ → ℚ) (cat : List Movie) (mv : Movie) : List ℚ :=
  (countRow cat mv).zipWith (fun (c : ℕ) (w : ℚ) => (c : ℚ) * w) (idfWeights idf cat)

/-- The tf-idf matrix of the corpus, rows in catalog order. -/
def tfidfMatrixQ (idf : ℕ → ℕ → ℚ) (cat : List Movie) : List (List ℚ) :=
  cat.map (tfidfRow idf cat)

/-- Dot product of two equally long rational vectors. -/
def dotL (xs ys : List ℚ) : ℚ := (xs.zipWith (· * ·) ys).sum

/-- SQUARE of the cosine-similarity entry `[i, j]` that
`linear_kernel(_tfidf_matrix, _tfidf_matrix)` produces after the l2
normalisation inside `TfidfVectorizer`: the source's entry is
`dot i j / (‖row i‖ * ‖row j‖)` (a zero row stays zero and yields 0);
its square `dot(i,j)^2 / (Q i * Q j)` with `Q` the squared norm is
rational.  All entries of the source are nonnegative, so squaring
preserves order, ties, and the values 0 and 1 exactly. -/
def simSqEntry (T : List (List ℚ)) (i j : ℕ) : ℚ :=
  let ri := T.getD i []
  let rj := T.getD j []
  let Qi := dotL ri ri
  let Qj := dotL rj rj
  if Qi = 0 ∨ Qj = 0 then 0 else (dotL ri rj) ^ 2 / (Qi * Qj)

/-- The (squared) similarity matrix `_similarity_matrix`, an `N × N`
list of lists in catalog order. -/
def simSqRows (idf : ℕ → ℕ → ℚ) (cat : List Movie) : List (List ℚ) :=
  (List.range cat.length).map (fun i =>
    (List.range cat.length).map (fun j => simSqEntry (tfidfMatrixQ idf cat) i j))

/-- Errors surfaced by the embedded operations: `notFound` is the
`ValueError` raised by `get_similar_movies` for an unresolvable title
(its Python message is the offending query wrapped in
`Movie '...' not found in dataset`); `emptyVocabulary` is the
`ValueError` that `fit_transform` raises when every document is empty
after stop-word removal; `indexError` is a Python `IndexError` (a list
subscript out of range). -/
inductive RecError where
  | notFound (query : String)
  | emptyVocabulary
  | indexError
deriving DecidableEq

/-- The message attached to the error, as far as claims refer to it:
the `notFound` message contains the offending query string. -/
def errMessage : RecError → String
  | .notFound q => "Movie " ++ q ++ " not found in dataset"
  | .emptyVocabulary => "empty vocabulary; perhaps the documents only contain stop words"
  | .indexError => "list index out of range"

/-- Building the similarity matrix (the work of
`initialize_content_model` after the globals check): fails like
`fit_transform` does when the vocabulary is empty, otherwise yields the
(squared) similarity matrix. -/
def simSqMatrixE (idf : ℕ → ℕ → ℚ) (cat : List Movie) :
    Except RecError (List (List ℚ)) :=
  if fitVocabulary cat = [] then .error .emptyVocabulary
  else .ok (simSqRows idf cat)

/-- Match a regex pattern (restricted to literal characters and the
metacharacter `.`) against a prefix of the text. -/
def reMatchAt : List Char → List Char → Bool
  | [], _ => true
  | _ :: _, [] => false
  | p :: ps, c :: cs => (p = '.' || p = c) && reMatchAt ps cs

/-- Python `re.search` on the literal-and-dot fragment: the pattern may
match starting at any position of the text. -/
def reSearch (pat : List Char) : List Char → Bool
  | [] => reMatchAt pat []
  | s@(_ :: cs) => reMatchAt pat s || reSearch pat cs

/-- `Series.str.contains(pat, case=False, na=False)` on a present title:
case-insensitive REGEX search (see the header comment; `re.IGNORECASE`
is modelled by lowercasing both sides, faithful on the ASCII
literal-and-dot fragment used throughout). -/
def pyContainsCI (pat s : String) : Bool :=
  reSearch (pyLower pat).data (pyLower s).data

/-- Literal prefix match of a pattern against a text. -/
def litMatchAt : List Char → List Char → Bool
  | [], _ => true
  | _ :: _, [] => false
  | p :: ps, c :: cs => (p = c) && litMatchAt ps cs

/-- Literal occurrence of a pattern anywhere in a text. -/
def litSearch (pat : List Char) : List Char → Bool
  | [] => litMatchAt pat []
  | s@(_ :: cs) => litMatchAt pat s || litSearch pat cs

/-- Modelled from the spec: the matching relation the spec prescribes
for substring queries — `query is contained anywhere in the title`,
case-insensitively and with the query taken LITERALLY.  This definition
follows the spec's words, not the code; it is used to exhibit where the
code's regex-based matching departs from it. -/
def literalContainsCI (pat s : String) : Bool :=
  litSearch (pyLower pat).data (pyLower s).data

/-- Exact case-insensitive title equality,
`movies["title"].str.lower() == movie_title.lower()` (a NaN title
compares unequal). -/
def titleLowerEq (mv : Movie) (q : String) : Bool :=
  match mv.title with
  | some t => pyLower t == pyLower q
  | none => false

/-- The substring fallback
`movies["title"].str.contains(movie_title, case=False, na=False)`
(a NaN title is excluded by `na=False`). -/
def titleContainsPy (mv : Movie) (q : String) : Bool :=
  match mv.title with
  | some t => pyContainsCI q t
  | none => false

/-- Step 1 of `get_similar_movies`: resolve the query to a row.  Exact
case-insensitive match first; if none, regex-based partial match; if
none, the `ValueError` naming the query.  `movie_matches.index[0]`
yields the first matching row position together with its record. -/
def resolveTitle (cat : List Movie) (q : String) : Except RecError (ℕ × Movie) :=
  match (cat.enum.filter (fun p => titleLowerEq p.2 q)) with
  | e :: _ => .ok e
  | [] =>
    match (cat.enum.filter (fun p => titleContainsPy p.2 q)) with
    | e :: _ => .ok e
    | [] => .error (.notFound q)

/-- One recommendation entry of `get_similar_movies`' response.
`simScoreSq` is the square of the similarity score; the source reports
`round(score, 4)`, which only re-renders the value and is not modelled
(no claim mentions the rounded value). -/
structure SimRec where
  id : ℤ
  title : Option String
  overview : String
  release_date : String
  vote_average : ℚ
  vote_count : ℤ
  simScoreSq : ℚ
deriving DecidableEq

/-- The response dictionary of `get_similar_movies`. -/
structure SimResult where
  query_movie : Option String
  recommendations : List SimRec
deriving DecidableEq

/-- Steps 2-6 of `get_similar_movies`, given the similarity matrix `M`:
enumerate the query row's scores, stably sort them in descending order
(Python's `sorted(..., reverse=True)`), slice `scores[1:k+1]` for the
recommended rows, and read `scores[i+1]` for `i in range(k)` for the
reported scores — the latter raises `IndexError` when `k + 1` exceeds
the number of rows. -/
def getSimilarMoviesWith (M : List (List ℚ)) (cat : List Movie) (q : String)
    (k : ℕ) : Except RecError SimResult :=
  match resolveTitle cat q with
  | .error e => .error e
  | .ok (i, mv) =>
    let scores := (M.getD i []).enum
    let sorted := List.insertionSort (fun a b : ℕ × ℚ => b.2 ≤ a.2) scores
    let picked := (sorted.drop 1).take k
    let simMovies := picked.map (fun p => cat.getD p.1 default)
    if k + 1 ≤ sorted.length then
      let simScores := (List.range k).map (fun t => (sorted.getD (t + 1) (0, 0)).2)
      .ok { query_movie := mv.title,
            recommendations := (simMovies.zip simScores).map (fun p =>
              { id := p.1.id, title := p.1.title,
                overview := p.1.overview.getD "",
                release_date := p.1.release_date.getD "",
                vote_average := p.1.vote_average, vote_count := p.1.vote_count,
                simScoreSq := p.2 }) }
    else .error .indexError

/-- `get_similar_movies` on a freshly initialized model: lazy
initialization computes the similarity matrix first (propagating its
failure), then the lookup runs. -/
def getSimilarMovies (idf : ℕ → ℕ → ℚ) (cat : List Movie) (q : String)
    (k : ℕ) : Except RecError SimResult :=
  match simSqMatrixE idf cat with
  | .error e => .error e
  | .ok M => getSimilarMoviesWith M cat q k

/-- One entry of `search_movies`' response. -/
structure SearchRec where
  id : ℤ
  title : Option String
  release_date : String
deriving DecidableEq

/-- `search_movies(query, limit)`: filter by
`str.contains(query, case=False, na=False)`, keep the first `limit`
matches in catalog order, format. -/
def searchMovies (cat : List Movie) (query : String) (limit : ℕ) : List SearchRec :=
  let found := cat.filter (fun mv => titleContainsPy mv query)
  (found.take limit).map (fun mv =>
    { id := mv.id, title := mv.title, release_date := mv.release_date.getD "" })

deriving instance DecidableEq for Except

/-- The constant idf weight 1, used to instantiate closed statements.
On the catalogs `catTie` and `catZeroRow` below, where every vocabulary
term occurs in every nonempty document (`df = n`), the source's smooth
idf `ln((1+n)/(1+df)) + 1` equals exactly 1, so this instantiation is
not merely an admissible weighting but the very value the source
computes there. -/
def idfConst1 : ℕ → ℕ → ℚ := fun _ _ => 1

/-- Catalog exhibiting a similarity tie at the maximum score: two movies
with identical processed content (the overviews agree and both titles
disappear in tokenization — `A` is a one-letter token, `the` is a stop
word). -/
def catTie : List Movie :=
  [⟨1, some "A", some "space", none, none, none, 0, 0⟩,
   ⟨2, some "The", some "space", none, none, none, 0, 0⟩]

/-- Catalog with two movies of unrelated one-token content; used for the
regex-matching and over-requesting scenarios.  Tokens: row 0 `ab`,
row 1 `cd` (from the titles; both survive stop-word removal). -/
def catPair : List Movie :=
  [⟨1, some "ab", none, none, none, none, 0, 0⟩,
   ⟨2, some "cd", none, none, none, none, 0, 0⟩]

/-- Catalog whose second movie has an empty processed text (its only
field is the title `The`, a stop word), while the first movie keeps the
vocabulary nonempty so that fitting succeeds. -/
def catZeroRow : List Movie :=
  [⟨1, some "A", some "space", none, none, none, 0, 0⟩,
   ⟨2, some "The", none, none, none, none, 0, 0⟩]

/-- Single-movie catalog for the search counterexample. -/
def catAbc : List Movie := [⟨7, some "abc", none, none, none, none, 0, 0⟩]

/-- Python's banker's rounding (`round` rounds halves to even). -/
def roundHalfEven (x : ℚ) : ℤ :=
  let f := ⌊x⌋
  let r := x - f
  if r < 1 / 2 then f
  else if 1 / 2 < r then f + 1
  else if Even f then f else f + 1

/-- `round(x, 2)` of the source, in exact arithmetic. -/
def round2 (x : ℚ) : ℚ := (roundHalfEven (x * 100) : ℚ) / 100

/-- `Series.quantile(q)` with the default linear interpolation: sort the
values ascending, put `pos = q * (n - 1)`, and interpolate linearly
between the neighbouring order statistics. -/
def quantileLinear (xs : List ℚ) (q : ℚ) : ℚ :=
  let s := List.insertionSort (fun a b : ℚ => a ≤ b) xs
  let n := s.length
  let pos := q * ((n : ℚ) - 1)
  let i := (⌊pos⌋).toNat
  let a := s.getD i 0
  let b := s.getD (min (i + 1) (n - 1)) 0
  a + (pos - (i : ℚ)) * (b - a)

/-- `weighted_rating(df, m, C)` of `popularity.py`:
`(v/(v+m)) * R + (m/(v+m)) * C`. -/
def weighted_rating (mv : Movie) (m C : ℚ) : ℚ :=
  let R := mv.vote_average
  let v := (mv.vote_count : ℚ)
  (v / (v + m)) * R + (m / (v + m)) * C

/-- `movies["vote_count"].quantile(min_vote_percentile)`. -/
def voteCountThreshold (cat : List Movie) (p : ℚ) : ℚ :=
  quantileLinear (cat.map (fun mv => (mv.vote_count : ℚ))) p

/-- `movies["vote_average"].mean()` (the loaded catalog has no NaN vote
averages, so the pandas `skipna` mean is the plain mean). -/
def meanVoteAverage (cat : List Movie) : ℚ :=
  (cat.map (fun mv => mv.vote_average)).sum / (cat.length : ℚ)

/-- `movies.loc[movies["vote_count"] >= m]`. -/
def qualifiedMovies (cat : List Movie) (m : ℚ) : List Movie :=
  cat.filter (fun mv => m ≤ (mv.vote_count : ℚ))

/-- One dictionary in the response of `get_popular_movies`. -/
structure PopRec where
  id : ℤ
  title : Option String
  weighted_rating : ℚ
  vote_average : ℚ
  vote_count : ℤ
  release_date : Option String
  overview : Option String
deriving DecidableEq

/-- `get_popular_movies(n, min_vote_percentile)`: quantile threshold and
mean over the whole catalog, filter, score, sort descending (pandas'
unstable quicksort tie order is embedded as stable-by-row-order), take
the first `n`, format with the score rounded to 2 decimals. -/
def getPopularMovies (cat : List Movie) (n : ℕ) (p : ℚ) : List PopRec :=
  let m := voteCountThreshold cat p
  let C := meanVoteAverage cat
  let scored := (qualifiedMovies cat m).map (fun mv => (mv, weighted_rating mv m C))
  let sorted := List.insertionSort (fun a b : Movie × ℚ => b.2 ≤ a.2) scored
  (sorted.take n).map (fun s =>
    ⟨s.1.id, s.1.title, round2 s.2, s.1.vote_average, s.1.vote_count,
      s.1.release_date, s.1.overview⟩)

/-- Modelled from the spec's words (§4.4 Popularity Ranker): let `m` be
the `minVotePercentile`-quantile of `vote_count` across the whole
catalog and `C` the mean of `vote_average` across the whole (unfiltered)
catalog; filter to records with `vote_count ≥ m`; score each survivor by
`(v/(v+m))*R + (m/(v+m))*C`; sort descending by that score; return the
top `n`, each with its score rounded to 2 decimal places. -/
def specTopPopular (cat : List Movie) (n : ℕ) (p : ℚ) : List PopRec :=
  let m := quantileLinear (cat.map (fun mv => (mv.vote_count : ℚ))) p
  let C := (cat.map (fun mv => mv.vote_average)).sum / (cat.length : ℚ)
  let survivors := cat.filter (fun mv => m ≤ (mv.vote_count : ℚ))
  let ranked := List.insertionSort (fun a b : Movie × ℚ => b.2 ≤ a.2)
    (survivors.map (fun mv =>
      (mv, ((mv.vote_count : ℚ) / ((mv.vote_count : ℚ) + m)) * mv.vote_average +
        (m / ((mv.vote_count : ℚ) + m)) * C)))
  (ranked.take n).map (fun s =>
    ⟨s.1.id, s.1.title, round2 s.2, s.1.vote_average, s.1.vote_count,
      s.1.release_date, s.1.overview⟩)

/-- The response of `get_popularity_stats`. -/
structure StatsRec where
  total_movies : ℕ
  qualified_movies : ℕ
  min_vote_threshold : ℚ
  mean_vote_average : ℚ
deriving DecidableEq

/-- `get_popularity_stats()`: descriptive statistics at the fixed 0.9
percentile. -/
def getPopularityStats (cat : List Movie) : StatsRec :=
  let m := voteCountThreshold cat (9 / 10)
  ⟨cat.length, (qualifiedMovies cat m).length, round2 m,
    round2 (meanVoteAverage cat)⟩

/-- The three module-level globals of
`content_based_recommendation.py`.  The fitted vectorizer is represented
by its vocabulary.  (On the failure path the source leaves an unfitted
vectorizer object behind; since no fitted state exists there, it is
represented as `none`.) -/
structure ModelState where
  tfidfVectorizer : Option (List String)
  tfidfMatrix : Option (List (List ℚ))
  simSqMatrix : Option (List (List ℚ))
deriving DecidableEq

/-- The all-`None` state the module starts in. -/
def emptyModel : ModelState := ⟨none, none, none⟩

/-- `initialize_content_model()`: returns immediately when
`_similarity_matrix is not None`; otherwise fits the vectorizer
(raising on an empty vocabulary) and stores all three globals. -/
def initContentModel (idf : ℕ → ℕ → ℚ) (cat : List Movie) (st : ModelState) :
    ModelState × Except RecError Unit :=
  if st.simSqMatrix.isSome then (st, .ok ())
  else if fitVocabulary cat = [] then
    (⟨none, none, none⟩, .error .emptyVocabulary)
  else
    (⟨some (fitVocabulary cat), some (tfidfMatrixQ idf cat),
      some (simSqRows idf cat)⟩, .ok ())

/-- The process state the query operations touch: the loaded catalog
(`data_loader.movies`) and the content-model globals. -/
structure Store where
  movies : List Movie
  model : ModelState
deriving DecidableEq

/-- `get_popular_movies` as a state transformer: it computes on
`data_loader.movies.copy()` and never writes the loader. -/
def getPopularMoviesSt (st : Store) (n : ℕ) (p : ℚ) : Store × List PopRec :=
  (st, getPopularMovies st.movies n p)

/-- `get_popularity_stats` as a state transformer: read-only. -/
def getPopularityStatsSt (st : Store) : Store × StatsRec :=
  (st, getPopularityStats st.movies)

/-- `search_movies` as a state transformer: read-only. -/
def searchMoviesSt (st : Store) (q : String) (limit : ℕ) :
    Store × List SearchRec :=
  (st, searchMovies st.movies q limit)

/-- `get_similar_movies` as a state transformer: lazily initializes the
model globals (mutating them) and then performs the read-only lookup on
the stored similarity matrix. -/
def getSimilarMoviesSt (idf : ℕ → ℕ → ℚ) (st : Store) (q : String) (k : ℕ) :
    Store × Except RecError SimResult :=
  match initContentModel idf st.movies st.model with
  | (m, .error e) => (⟨st.movies, m⟩, .error e)
  | (m, .ok _) =>
    (⟨st.movies, m⟩,
      getSimilarMoviesWith (m.simSqMatrix.getD []) st.movies q k)

/-- Modelled from the spec (§4.3 Query Resolver, step 1): the first
record in catalog order whose full title matches the query
case-insensitively, together with its row position. -/
def firstExactMatch (cat : List Movie) (q : String) : Option (ℕ × Movie) :=
  cat.enum.find? (fun p => titleLowerEq p.2 q)

/-- Catalog for the resolver-priority witness: the first movie matches
the query `The Dark Knight` only as a substring, the second matches it
exactly (case-insensitively). -/
def catResolve : List Movie :=
  [⟨1, some "The Dark Knight Rises", none, none, none, none, 0, 0⟩,
   ⟨2, some "the dark knight", none, none, none, none, 0, 0⟩]

/-- Single-movie catalog for the popularity witness. -/
def catSingle : List Movie := [⟨1, some "xy", none, none, none, none, 5, 10⟩]

/-- Entry evaluation for a matrix of two identical one-term rows: every
(squared) similarity is 1. -/
theorem simSqEntry_dup (x : ℚ) (hx : x ≠ 0) (i j : ℕ) (hi : i < 2) (hj : j < 2) :
    simSqEntry [[x], [x]] i j = 1 := by
  have hQ : x * x + 0 ≠ 0 := by simpa using mul_ne_zero hx hx
  interval_cases i <;> interval_cases j <;>
    · simp only [simSqEntry, dotL, List.getD_cons_zero, List.getD_cons_succ,
        List.zipWith, List.sum_cons, List.sum_nil]
      rw [if_neg (by tauto)]
      field_simp
      try ring

/-- The tf-idf matrix is the count matrix with the idf weights applied
columnwise. -/
theorem tfidfMatrixQ_eq_countMatrix (idf : ℕ → ℕ → ℚ) (cat : List Movie) :
    tfidfMatrixQ idf cat = (countMatrix cat).map
      (fun row => row.zipWith (fun (c : ℕ) (w : ℚ) => (c : ℚ) * w)
        (idfWeights idf cat)) := by
  unfold tfidfMatrixQ countMatrix tfidfRow
  rw [List.map_map]
  rfl

theorem idfWeights_catTie (idf : ℕ → ℕ → ℚ) :
    idfWeights idf catTie = [idf 2 2] := by
  unfold idfWeights
  rw [show fitVocabulary catTie = ["space"] from by decide]
  simp [show dfOf catTie "space" = 2 from by decide,
    show catTie.length = 2 from rfl]

theorem tfidf_catTie (idf : ℕ → ℕ → ℚ) :
    tfidfMatrixQ idf catTie = [[3 * idf 2 2], [3 * idf 2 2]] := by
  rw [tfidfMatrixQ_eq_countMatrix, idfWeights_catTie,
    show countMatrix catTie = [[3], [3]] from by decide]
  norm_num

/-- Entry evaluation for a matrix of two orthogonal one-term-each rows:
the diagonal is 1, the off-diagonal entries are 0. -/
theorem simSqEntry_orth (x y : ℚ) (hx : x ≠ 0) (hy : y ≠ 0) (i j : ℕ)
    (hi : i < 2) (hj : j < 2) :
    simSqEntry [[x, 0], [0, y]] i j = if i = j then 1 else 0 := by
  have hQx : x * x + (0 * 0 + 0) ≠ 0 := by simpa using mul_ne_zero hx hx
  have hQy : 0 * 0 + (y * y + 0) ≠ 0 := by simpa using mul_ne_zero hy hy
  interval_cases i <;> interval_cases j <;>
    · simp only [simSqEntry, dotL, List.getD_cons_zero, List.getD_cons_succ,
        List.zipWith, List.sum_cons, List.sum_nil, if_true, if_false]
      rw [if_neg (by tauto)]
      field_simp
      try ring

/-- On `catTie` the code's similarity matrix is the all-ones 2×2 matrix
for every admissible idf weighting (both rows are equal, so every cosine
is exactly 1; on this catalog the source's own smooth idf weight is
exactly `ln(3/3) + 1 = 1` as well). -/
theorem simSq_catTie (idf : ℕ → ℕ → ℚ) (h : IdfPos idf) :
    simSqMatrixE idf catTie = .ok [[1, 1], [1, 1]] := by
  have hx : (3 : ℚ) * idf 2 2 ≠ 0 :=
    mul_ne_zero (by norm_num) (ne_of_gt (h 2 2))
  unfold simSqMatrixE
  rw [if_neg (show ¬ fitVocabulary catTie = [] from by decide)]
  unfold simSqRows
  rw [show catTie.length = 2 from rfl, tfidf_catTie]
  simp only [List.range_succ, List.range_zero, List.nil_append,
    List.cons_append, List.map_cons, List.map_nil]
  rw [simSqEntry_dup _ hx 0 0 (by norm_num) (by norm_num),
    simSqEntry_dup _ hx 0 1 (by norm_num) (by norm_num),
    simSqEntry_dup _ hx 1 0 (by norm_num) (by norm_num),
    simSqEntry_dup _ hx 1 1 (by norm_num) (by norm_num)]

/-- C1 (the claim fails on the code; the spec and the code's own
comments are the intent): on `catTie` the query `The` resolves to row 1,
whose movie has id 2, and `get_similar_movies` returns that very movie —
the query row itself — as its sole recommendation.  The two rows have
identical processed content, so the self-similarity 1.0 is TIED with row
0's score; Python's stable descending sort places the tied row 0 first,
and the code drops only position 0 of the sorted list, not the query row
itself. -/
theorem c1_self_exclusion_fails_on_ties (idf : ℕ → ℕ → ℚ) (h : IdfPos idf) :
    resolveTitle catTie "The" = .ok (1, catTie.getD 1 default) ∧
    getSimilarMovies idf catTie "The" 1 =
      .ok ⟨some "The", [⟨2, some "The", "space", "", 0, 0, 1⟩]⟩ := by
  refine ⟨rfl, ?_⟩
  unfold getSimilarMovies
  rw [simSq_catTie idf h]
  show getSimilarMoviesWith [[1, 1], [1, 1]] catTie "The" 1 = _
  unfold getSimilarMoviesWith
  rw [show resolveTitle catTie "The" = .ok (1, catTie.getD 1 default) from rfl]
  norm_num [List.enum, List.enumFrom, List.insertionSort, List.orderedInsert,
    List.range_succ]
  exact ⟨rfl, rfl, rfl, rfl, rfl, rfl, rfl⟩

theorem idfWeights_catPair (idf : ℕ → ℕ → ℚ) :
    idfWeights idf catPair = [idf 2 1, idf 2 1] := by
  unfold idfWeights
  rw [show fitVocabulary catPair = ["ab", "cd"] from by decide]
  simp [show dfOf catPair "ab" = 1 from by decide,
    show dfOf catPair "cd" = 1 from by decide,
    show catPair.length = 2 from rfl]

theorem tfidf_catPair (idf : ℕ → ℕ → ℚ) :
    tfidfMatrixQ idf catPair = [[idf 2 1, 0], [0, idf 2 1]] := by
  rw [tfidfMatrixQ_eq_countMatrix, idfWeights_catPair,
    show countMatrix catPair = [[1, 0], [0, 1]] from by decide]
  norm_num

/-- On `catPair` the similarity matrix is the 2×2 identity for every
admissible idf weighting: the two movies share no term, so the cosine
between them is 0 and each diagonal entry is 1. -/
theorem simSq_catPair (idf : ℕ → ℕ → ℚ) (h : IdfPos idf) :
    simSqMatrixE idf catPair = .ok [[1, 0], [0, 1]] := by
  have hx : idf 2 1 ≠ 0 := ne_of_gt (h 2 1)
  unfold simSqMatrixE
  rw [if_neg (show ¬ fitVocabulary catPair = [] from by decide)]
  unfold simSqRows
  rw [show catPair.length = 2 from rfl, tfidf_catPair]
  simp only [List.range_succ, List.range_zero, List.nil_append,
    List.cons_append, List.map_cons, List.map_nil]
  rw [simSqEntry_orth _ _ hx hx 0 0 (by norm_num) (by norm_num),
    simSqEntry_orth _ _ hx hx 0 1 (by norm_num) (by norm_num),
    simSqEntry_orth _ _ hx hx 1 0 (by norm_num) (by norm_num),
    simSqEntry_orth _ _ hx hx 1 1 (by norm_num) (by norm_num)]
  norm_num

/-- Entry evaluation for a matrix whose second row is the zero vector:
only the upper-left diagonal entry is 1; in particular the LOWER RIGHT
DIAGONAL entry is 0, because `linear_kernel` maps a zero tf-idf row to a
zero similarity row. -/
theorem simSqEntry_zeroRow (x : ℚ) (hx : x ≠ 0) (i j : ℕ) (hi : i < 2) (hj : j < 2) :
    simSqEntry [[x], [0]] i j = if i = 0 ∧ j = 0 then 1 else 0 := by
  have hQ : x * x + 0 ≠ 0 := by simpa using mul_ne_zero hx hx
  interval_cases i <;> interval_cases j <;>
    · simp only [simSqEntry, dotL, List.getD_cons_zero, List.getD_cons_succ,
        List.zipWith, List.sum_cons, List.sum_nil]
      norm_num
      try (rw [if_neg (by tauto)]; field_simp; try ring)

theorem idfWeights_catZeroRow (idf : ℕ → ℕ → ℚ) :
    idfWeights idf catZeroRow = [idf 2 1] := by
  unfold idfWeights
  rw [show fitVocabulary catZeroRow = ["space"] from by decide]
  simp [show dfOf catZeroRow "space" = 1 from by decide,
    show catZeroRow.length = 2 from rfl]

theorem tfidf_catZeroRow (idf : ℕ → ℕ → ℚ) :
    tfidfMatrixQ idf catZeroRow = [[3 * idf 2 1], [0]] := by
  rw [tfidfMatrixQ_eq_countMatrix, idfWeights_catZeroRow,
    show countMatrix catZeroRow = [[3], [0]] from by decide]
  norm_num

/-- On `catZeroRow` (second movie empty after stop-word removal) the
similarity matrix has a ZERO second diagonal entry for every admissible
idf weighting. -/
theorem simSq_catZeroRow (idf : ℕ → ℕ → ℚ) (h : IdfPos idf) :
    simSqMatrixE idf catZeroRow = .ok [[1, 0], [0, 0]] := by
  have hx : (3 : ℚ) * idf 2 1 ≠ 0 := mul_ne_zero (by norm_num) (ne_of_gt (h 2 1))
  unfold simSqMatrixE
  rw [if_neg (show ¬ fitVocabulary catZeroRow = [] from by decide)]
  unfold simSqRows
  rw [show catZeroRow.length = 2 from rfl, tfidf_catZeroRow]
  simp only [List.range_succ, List.range_zero, List.nil_append,
    List.cons_append, List.map_cons, List.map_nil]
  rw [simSqEntry_zeroRow _ hx 0 0 (by norm_num) (by norm_num),
    simSqEntry_zeroRow _ hx 0 1 (by norm_num) (by norm_num),
    simSqEntry_zeroRow _ hx 1 0 (by norm_num) (by norm_num),
    simSqEntry_zeroRow _ hx 1 1 (by norm_num) (by norm_num)]
  norm_num

/-- C5: whenever some record matches the query exactly
(case-insensitively on the full title), `get_similar_movies` resolves
the query to the FIRST such record in catalog order — the substring
fallback is never consulted, so a record matching only as a substring is
never chosen. -/
theorem c5_exact_match_priority (cat : List Movie) (q : String) (e : ℕ × Movie)
    (h : firstExactMatch cat q = some e) :
    resolveTitle cat q = .ok e := by
  have hh : (cat.enum.filter (fun p => titleLowerEq p.2 q)).head? = some e := by
    rw [List.filter_head?]; exact h
  unfold resolveTitle
  cases hfil : cat.enum.filter (fun p => titleLowerEq p.2 q) with
  | nil => rw [hfil] at hh; simp at hh
  | cons a t =>
    rw [hfil] at hh
    simp only [List.head?_cons, Option.some.injEq] at hh
    subst hh
    rfl

/-- C9: `initialize_content_model` is idempotent — after a successful
call produced the state `st2`, calling again returns without error and
leaves the vectorizer, the tf-idf matrix and the similarity matrix
exactly as they were (the similarity-matrix globals check
short-circuits). -/
theorem c9_init_idempotent (idf : ℕ → ℕ → ℚ) (cat : List Movie) (st st2 : ModelState)
    (h : initContentModel idf cat st = (st2, .ok ())) :
    initContentModel idf cat st2 = (st2, .ok ()) := by
  unfold initContentModel at h ⊢
  by_cases h1 : st.simSqMatrix.isSome
  · rw [if_pos h1] at h
    simp only [Prod.mk.injEq] at h
    rw [if_pos (h.1 ▸ h1)]
  · rw [if_neg h1] at h
    by_cases h2 : fitVocabulary cat = []
    · rw [if_pos h2] at h
      simp at h
    · rw [if_neg h2] at h
      simp only [Prod.mk.injEq] at h
      rw [if_pos (by rw [← h.1]; simp)]

/-- C10: every query operation leaves the loaded movie catalog
unchanged — `get_similar_movies` may initialize the model globals, but
none of the four operations adds, removes, reorders or modifies a
catalog row. -/
theorem c10_queries_preserve_catalog (idf : ℕ → ℕ → ℚ) (st : Store) (q q2 : String)
    (k n limit : ℕ) (p : ℚ) :
    (getSimilarMoviesSt idf st q k).1.movies = st.movies ∧
    (getPopularMoviesSt st n p).1.movies = st.movies ∧
    (getPopularityStatsSt st).1.movies = st.movies ∧
    (searchMoviesSt st q2 limit).1.movies = st.movies := by
  refine ⟨?_, rfl, rfl, rfl⟩
  unfold getSimilarMoviesSt
  split <;> rfl

theorem getD_map_range {α : Type} (f : ℕ → α) {n i : ℕ} (d : α) (h : i < n) :
    ((List.range n).map f).getD i d = f i := by
  rw [List.getD_eq_getElem?_getD, List.getElem?_map, List.getElem?_range h]
  rfl

theorem getD_map_get {α β : Type} (f : α → β) (l : List α) {i : ℕ} (d : β)
    (h : i < l.length) :
    (l.map f).getD i d = f (l.get ⟨i, h⟩) := by
  rw [List.getD_eq_getElem?_getD, List.getElem?_map, List.getElem?_eq_getElem h]
  rfl

theorem getD_eq_getElem_of_lt {α : Type} (l : List α) (d : α) {i : ℕ}
    (h : i < l.length) : l.getD i d = l[i] := by
  rw [List.getD_eq_getElem?_getD, List.getElem?_eq_getElem h]
  rfl

theorem getD_zipWith_mul : ∀ (cs : List ℕ) (ws : List ℚ) (t : ℕ),
    t < cs.length → t < ws.length →
    (cs.zipWith (fun (c : ℕ) (w : ℚ) => (c : ℚ) * w) ws).getD t 0 =
      (cs.getD t 0 : ℚ) * ws.getD t 0
  | [], _, t, h1, _ => absurd h1 (by simp)
  | _ :: _, [], t, _, h2 => absurd h2 (by simp)
  | c :: cs, w :: ws, 0, _, _ => by simp
  | c :: cs, w :: ws, t + 1, h1, h2 => by
    simpa using getD_zipWith_mul cs ws t (by simpa using h1) (by simpa using h2)

/-- A vector of zeros has zero dot product with itself. -/
theorem dotL_self_zero (xs : List ℚ) (h : ∀ x ∈ xs, x = 0) : dotL xs xs = 0 := by
  unfold dotL
  rw [List.zipWith_same]
  apply List.sum_eq_zero
  intro z hz
  obtain ⟨y, hy, rfl⟩ := List.mem_map.mp hz
  rw [h y hy]
  ring

/-- A vector with a nonzero coordinate has positive dot product with
itself. -/
theorem dotL_self_pos (xs : List ℚ) {t : ℕ} (ht : t < xs.length)
    (hx : xs.getD t 0 ≠ 0) : 0 < dotL xs xs := by
  unfold dotL
  rw [List.zipWith_same]
  have hmem : xs.getD t 0 * xs.getD t 0 ∈ xs.map (fun a => a * a) := by
    rw [getD_eq_getElem_of_lt _ _ ht]
    exact List.mem_map_of_mem _ (List.getElem_mem ht)
  have hle := List.single_le_sum (l := xs.map (fun a => a * a)) ?_ _ hmem
  · have hp : 0 < xs.getD t 0 * xs.getD t 0 := mul_self_pos.mpr hx
    linarith
  · intro z hz
    obtain ⟨y, _, rfl⟩ := List.mem_map.mp hz
    exact mul_self_nonneg y

theorem countRow_length (cat : List Movie) (mv : Movie) :
    (countRow cat mv).length = (fitVocabulary cat).length := by
  unfold countRow
  exact List.length_map _ _

theorem idfWeights_length (idf : ℕ → ℕ → ℚ) (cat : List Movie) :
    (idfWeights idf cat).length = (fitVocabulary cat).length := by
  unfold idfWeights
  exact List.length_map _ _

/-- C3 as amended: for every catalog whose model fits successfully, the
diagonal similarity entry of row `i` is 1 when row `i` still holds at
least one vocabulary token after stop-word removal, and 0 when its
token-count row is all zeros (the tf-idf row is then the zero vector,
which `linear_kernel` maps to similarity 0, not 1).  Stated on the
squared similarity, which coincides with the similarity at the values 0
and 1. -/
theorem c3_diag_one_iff_nonzero_row (idf : ℕ → ℕ → ℚ) (h : IdfPos idf) (cat : List Movie)
    (M : List (List ℚ)) (hM : simSqMatrixE idf cat = .ok M) (i : ℕ)
    (hi : i < cat.length) :
    (M.getD i []).getD i 0 =
      if ∀ c ∈ (countMatrix cat).getD i [], c = 0 then 0 else 1 := by
  by_cases hv : fitVocabulary cat = []
  · unfold simSqMatrixE at hM
    rw [if_pos hv] at hM
    exact absurd hM (by simp)
  · unfold simSqMatrixE at hM
    rw [if_neg hv] at hM
    have hMeq : simSqRows idf cat = M := by injection hM
    subst hMeq
    unfold simSqRows
    rw [getD_map_range _ _ hi, getD_map_range _ _ hi]
    have hcm : (countMatrix cat).getD i [] = countRow cat (cat.get ⟨i, hi⟩) := by
      unfold countMatrix
      exact getD_map_get _ _ _ hi
    have hT : (tfidfMatrixQ idf cat).getD i [] =
        tfidfRow idf cat (cat.get ⟨i, hi⟩) := by
      unfold tfidfMatrixQ
      exact getD_map_get _ _ _ hi
    rw [hcm]
    unfold simSqEntry
    rw [hT]
    have hlen : (tfidfRow idf cat (cat.get ⟨i, hi⟩)).length =
        (countRow cat (cat.get ⟨i, hi⟩)).length := by
      unfold tfidfRow
      rw [List.length_zipWith, idfWeights_length, countRow_length]
      exact Nat.min_self _
    by_cases hz : ∀ c ∈ countRow cat (cat.get ⟨i, hi⟩), c = 0
    · have hx0 : ∀ x ∈ tfidfRow idf cat (cat.get ⟨i, hi⟩), x = 0 := by
        intro x hx
        obtain ⟨t, ht, hxt⟩ := List.mem_iff_getElem.mp hx
        have ht1 : t < (countRow cat (cat.get ⟨i, hi⟩)).length := by
          rw [← hlen]; exact ht
        have ht2 : t < (idfWeights idf cat).length := by
          rw [idfWeights_length, ← countRow_length cat (cat.get ⟨i, hi⟩)]
          exact ht1
        have hcz : (countRow cat (cat.get ⟨i, hi⟩)).getD t 0 = 0 := by
          rw [getD_eq_getElem_of_lt _ _ ht1]
          exact hz _ (List.getElem_mem ht1)
        have hx2 : x = (tfidfRow idf cat (cat.get ⟨i, hi⟩)).getD t 0 := by
          rw [getD_eq_getElem_of_lt _ _ ht, hxt]
        rw [hx2]
        unfold tfidfRow
        rw [getD_zipWith_mul _ _ _ ht1 ht2, hcz]
        simp
      rw [if_pos (Or.inl (dotL_self_zero _ hx0)), if_pos hz]
    · push_neg at hz
      obtain ⟨c, hc, hcne⟩ := hz
      obtain ⟨t, ht1, hct⟩ := List.mem_iff_getElem.mp hc
      have ht2 : t < (idfWeights idf cat).length := by
        rw [idfWeights_length, ← countRow_length cat (cat.get ⟨i, hi⟩)]
        exact ht1
      have htt : t < (tfidfRow idf cat (cat.get ⟨i, hi⟩)).length := by
        rw [hlen]; exact ht1
      have hcpos : (0 : ℚ) < ((countRow cat (cat.get ⟨i, hi⟩)).getD t 0 : ℚ) := by
        have hh : (countRow cat (cat.get ⟨i, hi⟩)).getD t 0 = c := by
          rw [getD_eq_getElem_of_lt _ _ ht1]; exact hct
        rw [hh]
        exact_mod_cast Nat.pos_of_ne_zero hcne
      have hwpos : 0 < (idfWeights idf cat).getD t 0 := by
        rw [getD_eq_getElem_of_lt _ _ ht2]
        unfold idfWeights
        rw [List.getElem_map]
        exact h _ _
      have hne0 : (tfidfRow idf cat (cat.get ⟨i, hi⟩)).getD t 0 ≠ 0 := by
        unfold tfidfRow
        rw [getD_zipWith_mul _ _ _ ht1 ht2]
        exact ne_of_gt (mul_pos hcpos hwpos)
      have hpos := dotL_self_pos _ htt hne0
      rw [if_neg (by push_neg; exact ⟨ne_of_gt hpos, ne_of_gt hpos⟩)]
      rw [if_neg (by push_neg; exact ⟨c, hc, hcne⟩)]
      rw [sq]
      exact div_self (ne_of_gt (mul_pos hpos hpos))

theorem sorted_getD_le (s : List ℚ) (hs : List.Sorted (· ≤ ·) s) {i j : ℕ}
    (hij : i ≤ j) (hj : j < s.length) : s.getD i 0 ≤ s.getD j 0 := by
  rcases Nat.eq_or_lt_of_le hij with rfl | hlt
  · exact le_refl _
  · have hi : i < s.length := lt_trans hlt hj
    rw [getD_eq_getElem_of_lt _ _ hi, getD_eq_getElem_of_lt _ _ hj]
    exact List.pairwise_iff_get.mp hs ⟨i, hi⟩ ⟨j, hj⟩ hlt

/-- Linear-interpolation quantiles are monotone in the requested level:
the interpolation point moves right, and the piecewise-linear function
through the ascending order statistics is monotone. -/
theorem quantileLinear_mono (xs : List ℚ) (hne : xs ≠ []) {q1 q2 : ℚ}
    (h0 : 0 ≤ q1) (h12 : q1 ≤ q2) (h1 : q2 ≤ 1) :
    quantileLinear xs q1 ≤ quantileLinear xs q2 := by
  simp only [quantileLinear]
  set s := List.insertionSort (fun a b : ℚ => a ≤ b) xs with hsdef
  have hs : List.Sorted (· ≤ ·) s := List.sorted_insertionSort _ xs
  have hlen : s.length = xs.length := (List.perm_insertionSort _ xs).length_eq
  have hn : 1 ≤ s.length := by
    rw [hlen]
    exact List.length_pos.mpr hne
  set n := s.length with hndef
  set pos1 := q1 * ((n : ℚ) - 1) with hp1def
  set pos2 := q2 * ((n : ℚ) - 1) with hp2def
  have hn1 : (0 : ℚ) ≤ (n : ℚ) - 1 := by
    have hcast : (1 : ℚ) ≤ (n : ℚ) := by exact_mod_cast hn
    linarith
  have hpos0 : 0 ≤ pos1 := mul_nonneg h0 hn1
  have hpos12 : pos1 ≤ pos2 := mul_le_mul_of_nonneg_right h12 hn1
  have hpos2 : pos2 ≤ (n : ℚ) - 1 := by
    calc pos2 ≤ 1 * ((n : ℚ) - 1) := mul_le_mul_of_nonneg_right h1 hn1
    _ = (n : ℚ) - 1 := one_mul _
  have hpos02 : 0 ≤ pos2 := le_trans hpos0 hpos12
  have hf1 : (0 : ℤ) ≤ ⌊pos1⌋ := Int.floor_nonneg.mpr hpos0
  have hf2 : (0 : ℤ) ≤ ⌊pos2⌋ := Int.floor_nonneg.mpr hpos02
  set i1 := (⌊pos1⌋).toNat with hi1def
  set i2 := (⌊pos2⌋).toNat with hi2def
  have hc1 : ((i1 : ℚ)) = ((⌊pos1⌋ : ℚ)) := by
    rw [hi1def]
    exact_mod_cast congrArg (fun z : ℤ => (z : ℚ)) (Int.toNat_of_nonneg hf1)
  have hc2 : ((i2 : ℚ)) = ((⌊pos2⌋ : ℚ)) := by
    rw [hi2def]
    exact_mod_cast congrArg (fun z : ℤ => (z : ℚ)) (Int.toNat_of_nonneg hf2)
  have hg1a : (i1 : ℚ) ≤ pos1 := by rw [hc1]; exact Int.floor_le pos1
  have hg2a : (i2 : ℚ) ≤ pos2 := by rw [hc2]; exact Int.floor_le pos2
  have hg1b : pos1 - (i1 : ℚ) < 1 := by
    rw [hc1]
    have := Int.lt_floor_add_one pos1
    linarith
  have hi12 : i1 ≤ i2 := Int.toNat_le_toNat (Int.floor_le_floor hpos12)
  have hi2n : i2 ≤ n - 1 := by
    have h2i : ⌊pos2⌋ ≤ (n : ℤ) - 1 := by
      have hcast : pos2 ≤ (((n : ℤ) - 1 : ℤ) : ℚ) := by push_cast; linarith
      calc ⌊pos2⌋ ≤ ⌊(((n : ℤ) - 1 : ℤ) : ℚ)⌋ := Int.floor_le_floor hcast
      _ = (n : ℤ) - 1 := Int.floor_intCast _
    have htn := Int.toNat_le_toNat h2i
    rwa [show ((n : ℤ) - 1).toNat = n - 1 from by omega] at htn
  have hi2lt : i2 < n := by omega
  have hb1lt : min (i1 + 1) (n - 1) < n := by omega
  have hb2lt : min (i2 + 1) (n - 1) < n := by omega
  have ha1b1 : s.getD i1 0 ≤ s.getD (min (i1 + 1) (n - 1)) 0 :=
    sorted_getD_le s hs (by omega) hb1lt
  have ha2b2 : s.getD i2 0 ≤ s.getD (min (i2 + 1) (n - 1)) 0 :=
    sorted_getD_le s hs (by omega) hb2lt
  rcases Nat.eq_or_lt_of_le hi12 with heq | hlt
  · rw [heq]
    have hmul := mul_le_mul_of_nonneg_right
      (sub_le_sub_right hpos12 ((i2 : ℚ)))
      (sub_nonneg.mpr (heq ▸ ha2b2))
    rw [← heq] at hmul ⊢
    linarith
  · have hmin1 : min (i1 + 1) (n - 1) = i1 + 1 := by omega
    have hval1 : s.getD i1 0 +
        (pos1 - (i1 : ℚ)) * (s.getD (min (i1 + 1) (n - 1)) 0 - s.getD i1 0) ≤
        s.getD (i1 + 1) 0 := by
      rw [hmin1] at ha1b1 ⊢
      nlinarith [mul_nonneg (by linarith : (0 : ℚ) ≤ 1 - (pos1 - (i1 : ℚ)))
        (sub_nonneg.mpr ha1b1)]
    have hmid : s.getD (i1 + 1) 0 ≤ s.getD i2 0 :=
      sorted_getD_le s hs (by omega) hi2lt
    have hval2 : s.getD i2 0 ≤ s.getD i2 0 +
        (pos2 - (i2 : ℚ)) * (s.getD (min (i2 + 1) (n - 1)) 0 - s.getD i2 0) := by
      nlinarith [mul_nonneg (by linarith : (0 : ℚ) ≤ pos2 - (i2 : ℚ))
        (sub_nonneg.mpr ha2b2)]
    linarith

theorem length_filter_mono {α : Type} (l : List α) (p q : α → Bool)
    (h : ∀ a ∈ l, p a = true → q a = true) :
    (l.filter p).length ≤ (l.filter q).length := by
  induction l with
  | nil => simp
  | cons a t ih =>
    have ih2 := ih (fun b hb hpb => h b (List.mem_cons_of_mem a hb) hpb)
    by_cases hpa : p a = true
    · rw [List.filter_cons_of_pos hpa, List.filter_cons_of_pos (h a (List.mem_cons_self a t) hpa)]
      simpa using ih2
    · rw [List.filter_cons_of_neg (by simpa using hpa)]
      calc (t.filter p).length ≤ (t.filter q).length := ih2
      _ ≤ ((a :: t).filter q).length := by
        by_cases hqa : q a = true
        · rw [List.filter_cons_of_pos hqa]; simp
        · rw [List.filter_cons_of_neg (by simpa using hqa)]

/-- C2 (the claim fails on the code; the spec is the clear intent): on
the 2-movie catalog `catPair`, requesting `k = 2 > N - 1 = 1`
recommendations raises a Python `IndexError` instead of returning the
single available match: the slice `scores[1:k+1]` truncates, but the
score-extraction loop `[scores[i+1][1] for i in range(k)]` reads
`scores[2]` past the end of the 2-entry list. -/
theorem c2_overrequest_raises_index_error (idf : ℕ → ℕ → ℚ) (h : IdfPos idf) :
    catPair.length = 2 ∧
    getSimilarMovies idf catPair "ab" 2 = .error .indexError := by
  refine ⟨rfl, ?_⟩
  unfold getSimilarMovies
  rw [simSq_catPair idf h]
  show getSimilarMoviesWith [[1, 0], [0, 1]] catPair "ab" 2 = _
  unfold getSimilarMoviesWith
  rw [show resolveTitle catPair "ab" = .ok (0, catPair.getD 0 default) from rfl]
  norm_num [List.enum, List.enumFrom, List.insertionSort, List.orderedInsert]

/-- C6 (the claim fails on the code; the spec is the clear intent): the
query `.` matches NO title of `catPair` exactly or as a LITERAL
substring, so by the claim it should raise the not-found `ValueError`
naming `.`; but `str.contains` compiles the query as a regex, where `.`
matches any character, so the code resolves the query to row 0 and
returns a successful recommendation list instead of any error. -/
theorem c6_unmatched_query_yields_success (idf : ℕ → ℕ → ℚ) (h : IdfPos idf) :
    (∀ mv ∈ catPair, titleLowerEq mv "." = false ∧
      literalContainsCI "." (mv.title.getD "") = false) ∧
    getSimilarMovies idf catPair "." 1 =
      .ok ⟨some "ab", [⟨2, some "cd", "", "", 0, 0, 0⟩]⟩ := by
  refine ⟨by decide, ?_⟩
  unfold getSimilarMovies
  rw [simSq_catPair idf h]
  show getSimilarMoviesWith [[1, 0], [0, 1]] catPair "." 1 = _
  unfold getSimilarMoviesWith
  rw [show resolveTitle catPair "." = .ok (0, catPair.getD 0 default) from rfl]
  norm_num [List.enum, List.enumFrom, List.insertionSort, List.orderedInsert,
    List.range_succ]
  try exact ⟨rfl, rfl, rfl, rfl, rfl, rfl, rfl⟩

/-- C7 (the claim fails on the code; the code's own docstring — literal
substring search — is the intent): `search_movies` hands the query to
`str.contains`, which treats it as a regex.  The query `a.c` is not a
literal substring of the title `abc`, yet the movie is returned because
`.` matches `b`. -/
theorem c7_search_regex_not_literal :
    searchMovies catAbc "a.c" 10 = [⟨7, some "abc", ""⟩] ∧
    literalContainsCI "a.c" "abc" = false := by decide

/-- C3 counterexample: the claim as stated (diagonal entry 1.0 for EVERY
catalog, including one with a movie whose combined text is empty after
stop-word removal) is false.  On `catZeroRow` the model fits (the other
movie keeps the vocabulary nonempty), but the empty-text movie's tf-idf
row is the zero vector and its diagonal similarity entry is 0, not 1. -/
theorem c3_diag_not_always_one :
    ¬ (∀ idf : ℕ → ℕ → ℚ, IdfPos idf → ∀ (cat : List Movie) (M : List (List ℚ)),
      simSqMatrixE idf cat = .ok M → ∀ i, i < cat.length →
        (M.getD i []).getD i 0 = 1) := by
  intro hall
  have h1 := hall idfConst1 (fun _ _ => one_pos) catZeroRow [[1, 0], [0, 0]]
    (simSq_catZeroRow idfConst1 (fun _ _ => one_pos)) 1 (by decide)
  norm_num at h1

/-- C8: on a fixed nonempty catalog, raising the percentile within
`[0.5, 0.99]` never lowers the vote-count threshold `m` and never raises
the count of records passing the `vote_count ≥ m` filter. -/
theorem c8_percentile_threshold_monotone (cat : List Movie) (p1 p2 : ℚ) (hne : cat ≠ [])
    (h0 : 1 / 2 ≤ p1) (h12 : p1 ≤ p2) (h1 : p2 ≤ 99 / 100) :
    voteCountThreshold cat p1 ≤ voteCountThreshold cat p2 ∧
    (qualifiedMovies cat (voteCountThreshold cat p2)).length ≤
      (qualifiedMovies cat (voteCountThreshold cat p1)).length := by
  have hxs : cat.map (fun mv => (mv.vote_count : ℚ)) ≠ [] := by
    intro hmap
    exact hne (List.map_eq_nil_iff.mp hmap)
  have hmono := quantileLinear_mono _ hxs
    (le_trans (by norm_num) h0) h12 (le_trans h1 (by norm_num))
  refine ⟨hmono, ?_⟩
  unfold qualifiedMovies
  apply length_filter_mono
  intro mv _ hle
  simp only [decide_eq_true_eq] at hle ⊢
  exact le_trans hmono hle

/-- C4: `get_popular_movies` computes exactly the pipeline the spec
prescribes — `m` as the `p`-quantile of `vote_count` over the whole
catalog, `C` as the mean of `vote_average` over the whole unfiltered
catalog, the filter `vote_count ≥ m`, the IMDB weighted-rating score,
the descending sort, the top-`n` cut, and 2-decimal rounding of the
reported score.  `specTopPopular` is written from the spec's words;
`getPopularMovies` from the source. -/
theorem c4_popular_matches_spec :
    ∀ (cat : List Movie) (n : ℕ) (p : ℚ),
      getPopularMovies cat n p = specTopPopular cat n p :=
  fun _ _ _ => rfl

/-- Witness for C1 at the concrete idf weight 1 (on `catTie` the
source's own smooth idf is exactly 1). -/
theorem c1_self_exclusion_fails_on_ties_witness :
    resolveTitle catTie "The" = .ok (1, catTie.getD 1 default) ∧
    getSimilarMovies idfConst1 catTie "The" 1 =
      .ok ⟨some "The", [⟨2, some "The", "space", "", 0, 0, 1⟩]⟩ :=
  c1_self_exclusion_fails_on_ties idfConst1 (fun _ _ => one_pos)

/-- Witness for C2 at the concrete idf weight 1. -/
theorem c2_overrequest_raises_index_error_witness :
    catPair.length = 2 ∧
    getSimilarMovies idfConst1 catPair "ab" 2 = .error .indexError :=
  c2_overrequest_raises_index_error idfConst1 (fun _ _ => one_pos)

/-- Witness for C3 as amended: on `catZeroRow`, row 0 (whose count row
is `[3]`, not all zero) has diagonal entry 1. -/
theorem c3_diag_one_iff_nonzero_row_witness :
    (([[1, 0], [0, 0]] : List (List ℚ)).getD 0 []).getD 0 0 =
      if ∀ c ∈ (countMatrix catZeroRow).getD 0 [], c = 0 then 0 else 1 :=
  c3_diag_one_iff_nonzero_row idfConst1 (fun _ _ => one_pos) catZeroRow
    [[1, 0], [0, 0]] (simSq_catZeroRow idfConst1 (fun _ _ => one_pos)) 0 (by decide)

/-- Witness for C5: on `catResolve` the query `The Dark Knight` is a
substring of the FIRST record's title, but resolves to the SECOND
record, its first (and only) exact case-insensitive match. -/
theorem c5_exact_match_priority_witness :
    titleContainsPy (catResolve.getD 0 default) "The Dark Knight" = true ∧
    resolveTitle catResolve "The Dark Knight" =
      .ok (1, catResolve.getD 1 default) :=
  ⟨by decide,
    c5_exact_match_priority catResolve "The Dark Knight"
      (1, catResolve.getD 1 default) (by rfl)⟩

/-- Witness for C6 at the concrete idf weight 1. -/
theorem c6_unmatched_query_yields_success_witness :
    (∀ mv ∈ catPair, titleLowerEq mv "." = false ∧
      literalContainsCI "." (mv.title.getD "") = false) ∧
    getSimilarMovies idfConst1 catPair "." 1 =
      .ok ⟨some "ab", [⟨2, some "cd", "", "", 0, 0, 0⟩]⟩ :=
  c6_unmatched_query_yields_success idfConst1 (fun _ _ => one_pos)

/-- Witness for C8 on a concrete one-movie catalog at percentiles 0.5
and 0.9. -/
theorem c8_percentile_threshold_monotone_witness :
    voteCountThreshold catSingle (1 / 2) ≤ voteCountThreshold catSingle (9 / 10) ∧
    (qualifiedMovies catSingle (voteCountThreshold catSingle (9 / 10))).length ≤
      (qualifiedMovies catSingle (voteCountThreshold catSingle (1 / 2))).length :=
  c8_percentile_threshold_monotone catSingle (1 / 2) (9 / 10) (by decide)
    (by norm_num) (by norm_num) (by norm_num)

/-- Witness for C9: a concrete successful initialization on
`catZeroRow` starting from the fresh all-`None` state, followed by the
idempotent second call. -/
theorem c9_init_idempotent_witness :
    initContentModel idfConst1 catZeroRow
      (initContentModel idfConst1 catZeroRow emptyModel).1 =
    ((initContentModel idfConst1 catZeroRow emptyModel).1, .ok ()) :=
  c9_init_idempotent idfConst1 catZeroRow emptyModel
    (initContentModel idfConst1 catZeroRow emptyModel).1 (by rfl)
